import Mathlib

/-!
Shallow embedding of the search/indexing core of the Mycelian Memory
repository: the per-job handler of the outbox worker, the HTTP search
handler (`server/internal/api/search.go`), and the MCP `search_memories`
tool handler (`mcp/internal/handlers/search_handler.go`).

External collaborators (embedding provider, search index, authorizer,
client SDK) are modelled as oracle functions passed to the handlers;
each handler additionally returns the list of calls it made to those
collaborators, so that "neither Embed nor the index is called" style
properties can be stated as facts about the returned call trace.
-/

set_option autoImplicit false

namespace Mycelian

/-! ### Go string primitives -/

/-- The Go whitespace predicate `unicode.IsSpace` (the whitespace set used by `strings.TrimSpace`). -/
def goIsSpace (c : Char) : Bool :=
  c = ' ' || c = '\t' || c = '\n' || c = '\r' ||
  c = Char.ofNat 0x0B || c = Char.ofNat 0x0C ||
  c = Char.ofNat 0x85 || c = Char.ofNat 0xA0 ||
  c = Char.ofNat 0x1680 ||
  (Char.ofNat 0x2000 ≤ c && c ≤ Char.ofNat 0x200A) ||
  c = Char.ofNat 0x2028 || c = Char.ofNat 0x2029 ||
  c = Char.ofNat 0x202F || c = Char.ofNat 0x205F || c = Char.ofNat 0x3000

/-- The Go function `strings.TrimSpace`: drop leading and trailing whitespace. -/
def goTrimSpace (s : String) : String :=
  ⟨((s.data.dropWhile goIsSpace).reverse.dropWhile goIsSpace).reverse⟩

/-- Does `sub` occur as a contiguous run inside `l`? -/
def containsChars (sub : List Char) : List Char → Bool
  | [] => sub.isEmpty
  | c :: cs => sub.isPrefixOf (c :: cs) || containsChars sub cs

/-- The Go function `strings.Contains` (substring test). -/
def goContains (s sub : String) : Bool :=
  containsChars sub.data s.data

/-! ### Outbox worker data model

The worker implementation lives in `server/internal/outbox`; only its test
file is among the sources here, so the handler below is modelled from the
spec (§4.3) and cross-checked against the expectations of
`worker_test.go`. -/

/-- A JSON-ish payload value as the worker sees it: the worker only ever
inspects string-typed fields, so all non-string values are collapsed into
one constructor. -/
inductive GoValue where
  | str (s : String)
  | other
deriving DecidableEq

/-- The outbox `payload` column: a string-keyed map, modelled as an
association list (lookup takes the first binding). -/
abbrev Payload := List (String × GoValue)

/-- Read a string field of the payload, or `""` when absent / not a string. -/
def stringAt (p : Payload) (k : String) : String :=
  match List.lookup k p with
  | some (GoValue.str s) => s
  | _ => ""

/-- Modelled from the spec: `preferredText(payload, keys...)` returns the
first value that (a) exists, (b) is a string, and (c) is non-empty after
trimming leading/trailing whitespace; otherwise `""`.
(The worker implementation is not among the sources; this follows §4.3 and
`TestPreferredText`.) -/
def preferredText (p : Payload) : List String → String
  | [] => ""
  | k :: keys =>
    match List.lookup k p with
    | some (GoValue.str s) => if goTrimSpace s ≠ "" then s else preferredText p keys
    | _ => preferredText p keys

/-- Modelled from the spec: `isAlreadyExists(err)` — a nil error is not a
conflict; otherwise the (case-sensitive) message must contain
`already exists` or `status code: 422`. -/
def isAlreadyExists : Option String → Bool
  | none => false
  | some msg => goContains msg "already exists" || goContains msg "status code: 422"

/-- One outbox job row (the fields the handler reads). -/
structure Job where
  id : Nat
  op : String
  aggregateID : String
  payload : Payload

/-- A call made by the worker to the SearchIndex, with its arguments.
Vectors are opaque (type parameter `V`): the worker never inspects them. -/
inductive IndexCall (V : Type) where
  | upsertEntry (id : String) (vec : V) (payload : Payload)
  | upsertContext (id : String) (vec : V) (payload : Payload)
  | deleteEntry (actorID id : String)
  | deleteContext (actorID id : String)
  | deleteMemory (actorID memoryID : String)
  | deleteVault (actorID vaultID : String)
deriving DecidableEq

deriving instance DecidableEq for Except

/-- Result of one `handle` invocation: the texts passed to `Embed`, the
index calls made, and the returned Go error (`.ok` = job marked done). -/
structure HandleTrace (V : Type) where
  embedCalls : List String
  indexCalls : List (IndexCall V)
  result : Except String Unit
deriving DecidableEq

/-- Modelled from the spec (§4.3): the upsert path shared by `upsert_entry`
and `upsert_context`. Empty preferred text is a no-op success; an embed
error is returned (retry); an index error is success when
`isAlreadyExists`, otherwise returned (retry). -/
def runUpsert {V : Type} (embed : String → Except String V)
    (index : IndexCall V → Option String) (p : Payload) (keys : List String)
    (mk : V → IndexCall V) : HandleTrace V :=
  let text := preferredText p keys
  if text = "" then ⟨[], [], Except.ok ()⟩
  else
    match embed text with
    | Except.error e => ⟨[text], [], Except.error e⟩
    | Except.ok vec =>
      let c := mk vec
      match index c with
      | none => ⟨[text], [c], Except.ok ()⟩
      | some msg =>
        if isAlreadyExists (some msg) then ⟨[text], [c], Except.ok ()⟩
        else ⟨[text], [c], Except.error msg⟩

/-- Modelled from the spec (§4.3, §7): the delete path; conflicts are
success for deletes as well. -/
def runDelete {V : Type} (index : IndexCall V → Option String)
    (c : IndexCall V) : HandleTrace V :=
  match index c with
  | none => ⟨[], [c], Except.ok ()⟩
  | some msg =>
    if isAlreadyExists (some msg) then ⟨[], [c], Except.ok ()⟩
    else ⟨[], [c], Except.error msg⟩

/-- Modelled from the spec: the per-job worker function `handle`, dispatching on
`op` per the §4.3 table; any unrecognized `op` is a permanent
`unknown op` failure with no collaborator calls. `embed` and `index`
stand for the EmbeddingProvider and SearchIndex collaborators. -/
def handle {V : Type} (embed : String → Except String V)
    (index : IndexCall V → Option String) (j : Job) : HandleTrace V :=
  if j.op = "upsert_entry" then
    runUpsert embed index j.payload ["summary", "rawEntry"]
      (fun v => IndexCall.upsertEntry j.aggregateID v j.payload)
  else if j.op = "upsert_context" then
    runUpsert embed index j.payload ["context"]
      (fun v => IndexCall.upsertContext j.aggregateID v j.payload)
  else if j.op = "delete_entry" then
    runDelete index (IndexCall.deleteEntry (stringAt j.payload "actorId") j.aggregateID)
  else if j.op = "delete_context" then
    runDelete index (IndexCall.deleteContext (stringAt j.payload "actorId") j.aggregateID)
  else if j.op = "delete_memory" then
    runDelete index (IndexCall.deleteMemory (stringAt j.payload "actorId") j.aggregateID)
  else if j.op = "delete_vault" then
    runDelete index (IndexCall.deleteVault (stringAt j.payload "actorId") j.aggregateID)
  else ⟨[], [], Except.error ("unknown op: " ++ j.op)⟩

/-- "No key yields a value that exists, is a string, and is non-empty after
trimming": the empty-text condition of the spec, as a decidable check. -/
def noUsableText (p : Payload) (keys : List String) : Bool :=
  keys.all fun k =>
    match List.lookup k p with
    | some (GoValue.str s) => goTrimSpace s = ""
    | _ => true

/-! ### HTTP search service (`server/internal/api/search.go`)

Embedding vectors (`V`), entry hits (`H`), index timestamps (`T`), scores
(`S`) and the hybrid weight alpha (`A`) are opaque to the handler: it only
passes them along, so they are type parameters. -/

/-- `auth.ActorInfo` (only the field the search handler reads). -/
structure ActorInfo where
  actorID : String
deriving DecidableEq

/-- The `SearchRequest` DTO of `search.go` (`nil` pointer = absent field). -/
structure SearchRequest where
  memoryID : String
  query : String
  topKE : Option Int
  topKC : Option Int
  includeRawEntries : Bool
deriving DecidableEq

/-- `SearchRequest.Validate` from `search.go`: trim the query, require a
non-empty memoryId and query, default `top_ke`/`top_kc` to 5/2 when unset,
then range-check them. Go mutates the receiver; here the sanitised request
is returned on success. -/
def SearchRequest.Validate (r : SearchRequest) : Except String SearchRequest :=
  let r := { r with query := goTrimSpace r.query }
  if r.memoryID = "" then Except.error "memoryId is required"
  else if r.query = "" then Except.error "query cannot be empty"
  else
    let kE := r.topKE.getD 5
    let kC := r.topKC.getD 2
    if kE < 0 || kE > 25 then Except.error "top_ke must be between 0 and 25"
    else if kC < 1 || kC > 10 then Except.error "top_kc must be between 1 and 10"
    else Except.ok { r with topKE := some kE, topKC := some kC }

/-- `model.ContextHit` (the fields the handler reads). -/
structure ContextHit (T S : Type) where
  context : String
  timestamp : T
  score : S
deriving DecidableEq

/-- One element of the response `contexts` array: `{context, timestamp,
score}` with the timestamp already RFC3339-formatted. -/
structure CtxOut (S : Type) where
  context : String
  timestamp : String
  score : S
deriving DecidableEq

/-- A call made by the search handler to the `searchindex.Index`
collaborator, with its arguments. -/
inductive SIdxCall (V A : Type) where
  | search (actorID memoryID query : String) (vec : V) (topKE : Int)
      (alpha : A) (includeRawEntries : Bool)
  | latestContext (actorID memoryID : String)
  | searchContexts (actorID memoryID query : String) (vec : V) (topKC : Int)
      (alpha : A)
deriving DecidableEq

/-- The collaborators of `SearchHandler` for one request: the authorizer
verdict (`ExtractAPIKey` + `Authorize`, which fail uniformly with a 401),
the embedding provider, the three index operations, and RFC3339 timestamp
formatting. -/
structure SearchDeps (V H T S A : Type) where
  alpha : A
  authorize : Except String ActorInfo
  search : String → String → String → V → Int → A → Bool → Except String (List H)
  latestContext : String → String → Except String (String × T)
  searchContexts : String → String → String → V → Int → A →
      Except String (List (ContextHit T S))
  embed : String → Except String V
  fmtRFC3339 : T → String

/-- The calls `HandleSearch` made to its collaborators. -/
structure STrace (V A : Type) where
  embedCalls : List String
  idxCalls : List (SIdxCall V A)
deriving DecidableEq

/-- The HTTP response written by `HandleSearch` (401 / 400 / 500 / 200). -/
inductive SResult (H S : Type) where
  | unauthorized (msg : String)
  | badRequest (msg : String)
  | serverError (msg : String)
  | ok (entries : List H) (count : Nat)
      (latestContext latestContextTimestamp : String)
      (contexts : List (CtxOut S))
deriving DecidableEq

/-- The tail of `HandleSearch` after the entries search: always fetch the
latest context, then search context shards, then assemble the 200
response. `done` is the index-call trace so far, `hits` the entries
found. -/
def afterEntries {V H T S A : Type} (d : SearchDeps V H T S A)
    (info : ActorInfo) (req : SearchRequest) (vec : V) (hits : List H)
    (done : List (SIdxCall V A)) : STrace V A × SResult H S :=
  let kC := req.topKC.getD 2
  match d.latestContext info.actorID req.memoryID with
  | Except.error _ =>
    (⟨[req.query], done ++ [SIdxCall.latestContext info.actorID req.memoryID]⟩,
     SResult.serverError "latest context unavailable")
  | Except.ok (latestCtx, latestTs) =>
    match d.searchContexts info.actorID req.memoryID req.query vec kC d.alpha with
    | Except.error _ =>
      (⟨[req.query], done ++ [SIdxCall.latestContext info.actorID req.memoryID,
          SIdxCall.searchContexts info.actorID req.memoryID req.query vec kC d.alpha]⟩,
       SResult.serverError "context search unavailable")
    | Except.ok ctxHits =>
      (⟨[req.query], done ++ [SIdxCall.latestContext info.actorID req.memoryID,
          SIdxCall.searchContexts info.actorID req.memoryID req.query vec kC d.alpha]⟩,
       SResult.ok hits hits.length latestCtx (d.fmtRFC3339 latestTs)
         (ctxHits.map fun ch => ⟨ch.context, d.fmtRFC3339 ch.timestamp, ch.score⟩))

/-- `SearchHandler.HandleSearch` from `search.go`: extract/authorize the
API key (401 on failure), decode+validate the request (400 on failure),
embed the query once (500 on failure), search entries only when
`top_ke > 0`, then delegate to `afterEntries`. -/
def HandleSearch {V H T S A : Type} (d : SearchDeps V H T S A)
    (req0 : SearchRequest) : STrace V A × SResult H S :=
  match d.authorize with
  | Except.error e => (⟨[], []⟩, SResult.unauthorized ("Unauthorized: " ++ e))
  | Except.ok info =>
    match req0.Validate with
    | Except.error m => (⟨[], []⟩, SResult.badRequest m)
    | Except.ok req =>
      match d.embed req.query with
      | Except.error _ => (⟨[req.query], []⟩, SResult.serverError "embedding service unavailable")
      | Except.ok vec =>
        let kE := req.topKE.getD 5
        if 0 < kE then
          match d.search info.actorID req.memoryID req.query vec kE d.alpha req.includeRawEntries with
          | Except.error _ =>
            (⟨[req.query], [SIdxCall.search info.actorID req.memoryID req.query vec kE
                d.alpha req.includeRawEntries]⟩,
             SResult.serverError "search service unavailable")
          | Except.ok hits =>
            afterEntries d info req vec hits
              [SIdxCall.search info.actorID req.memoryID req.query vec kE
                d.alpha req.includeRawEntries]
        else
          afterEntries d info req vec [] []

/-- The vector argument of an index call, when it has one. -/
def SIdxCall.vecOf {V A : Type} : SIdxCall V A → Option V
  | SIdxCall.search _ _ _ v _ _ _ => some v
  | SIdxCall.latestContext _ _ => none
  | SIdxCall.searchContexts _ _ _ v _ _ => some v

/-- The memoryId argument of an index call. -/
def SIdxCall.memOf {V A : Type} : SIdxCall V A → String
  | SIdxCall.search _ m _ _ _ _ _ => m
  | SIdxCall.latestContext _ m => m
  | SIdxCall.searchContexts _ m _ _ _ _ => m

/-- Is this call an entries search (`Index.Search`)? -/
def SIdxCall.isEntrySearch {V A : Type} : SIdxCall V A → Bool
  | SIdxCall.search _ _ _ _ _ _ _ => true
  | _ => false

/-! ### MCP `search_memories` tool
(`mcp/internal/handlers/search_handler.go`) -/

/-- A decoded MCP tool argument. JSON numbers arrive in Go as `float64`;
they are modelled here at integer precision (no claim depends on
fractional values). Every other JSON shape is `other`. -/
inductive MCPValue where
  | num (n : Int)
  | str (s : String)
  | bool (b : Bool)
  | other
deriving DecidableEq

/-- The `client.SearchRequest` the tool sends to the backend client
(`TopKE`/`TopKC` pointers are always set by the tool, hence plain `Int`). -/
structure ClientSearchRequest where
  memoryID : String
  query : String
  topKE : Int
  topKC : Int
  includeRawEntries : Bool
deriving DecidableEq

/-- The tool outcome: `mcp.NewToolResultError` or the text payload built
from the client response (kept opaque as `R`). -/
inductive MCPResult (R : Type) where
  | toolError (msg : String)
  | toolText (r : R)
deriving DecidableEq

/-- Tail of `handleSearch` after both top-k arguments have been resolved:
read `include_raw_entries`, issue the client search, and map its outcome. -/
def mcpDoSearch {R : Type} (args : List (String × MCPValue))
    (searchFn : ClientSearchRequest → Except String R)
    (memoryID query : String) (topKE topKC : Int) :
    List ClientSearchRequest × MCPResult R :=
  let includeRaw :=
    match List.lookup "include_raw_entries" args with
    | some (MCPValue.bool b) => b
    | _ => false
  let req : ClientSearchRequest := ⟨memoryID, query, topKE, topKC, includeRaw⟩
  match searchFn req with
  | Except.error e => ([req], MCPResult.toolError ("search failed: " ++ e))
  | Except.ok r => ([req], MCPResult.toolText r)

/-- `top_kc` handling of `handleSearch`: default 2; the range check `[1,10]`
runs only when the argument is a JSON number (`float64` assertion). -/
def mcpAfterKE {R : Type} (args : List (String × MCPValue))
    (searchFn : ClientSearchRequest → Except String R)
    (memoryID query : String) (topKE : Int) :
    List ClientSearchRequest × MCPResult R :=
  match List.lookup "top_kc" args with
  | some (MCPValue.num n) =>
    if n < 1 || 10 < n then ([], MCPResult.toolError "top_kc must be between 1 and 10")
    else mcpDoSearch args searchFn memoryID query topKE n
  | _ => mcpDoSearch args searchFn memoryID query topKE 2

/-- `SearchHandler.handleSearch` of the MCP server: read the string
arguments (missing/ill-typed ones collapse to `""`, their `RequireString`
error being discarded), resolve `top_ke` (default 5, range `[0,25]` checked
only for JSON numbers), then `top_kc`, then call the backend. Also returns
the list of client search calls made. -/
def mcpHandleSearch {R : Type} (args : List (String × MCPValue))
    (searchFn : ClientSearchRequest → Except String R) :
    List ClientSearchRequest × MCPResult R :=
  let memoryID :=
    match List.lookup "memory_id" args with
    | some (MCPValue.str s) => s
    | _ => ""
  let query :=
    match List.lookup "query" args with
    | some (MCPValue.str s) => s
    | _ => ""
  match List.lookup "top_ke" args with
  | some (MCPValue.num n) =>
    if n < 0 || 25 < n then ([], MCPResult.toolError "top_ke must be between 0 and 25")
    else mcpAfterKE args searchFn memoryID query n
  | _ => mcpAfterKE args searchFn memoryID query 5

/-! ### Concrete fixtures used by witness and counterexample theorems -/

/-- An embedding oracle that always succeeds (vectors modelled as `Nat`). -/
def embedOkW : String → Except String Nat := fun _ => Except.ok 7

/-- An index oracle that always succeeds. -/
def indexOkW : IndexCall Nat → Option String := fun _ => none

/-- An index oracle that always reports an already-exists conflict. -/
def indexConflictW : IndexCall Nat → Option String :=
  fun _ => some "object already exists"

/-- Outbox job whose entry texts are empty / whitespace-only. -/
def jobEmptyEntry : Job :=
  ⟨1, "upsert_entry", "entry-1",
   [("summary", GoValue.str ""), ("rawEntry", GoValue.str "   \t\n  ")]⟩

/-- Outbox job with both `summary` and `rawEntry` present and usable. -/
def jobBothPresent : Job :=
  ⟨4, "upsert_entry", "entry-4",
   [("summary", GoValue.str "This is the summary"),
    ("rawEntry", GoValue.str "This is the raw entry")]⟩

/-- Outbox job whose `summary` is non-empty yet whitespace-only. -/
def jobPadSummary : Job :=
  ⟨20, "upsert_entry", "entry-20",
   [("summary", GoValue.str " "), ("rawEntry", GoValue.str "R")]⟩

/-- Outbox job with an unrecognized operation. -/
def jobUnknownOp : Job := ⟨14, "invalid_operation", "test-id", []⟩

/-- Search-handler collaborators that all succeed (opaque types as `Nat`). -/
def depsOkW : SearchDeps Nat Nat Nat Nat Nat where
  alpha := 0
  authorize := Except.ok ⟨"test-user"⟩
  search := fun _ _ _ _ _ _ _ => Except.ok [1]
  latestContext := fun _ _ => Except.ok ("ctx", 0)
  searchContexts := fun _ _ _ _ _ _ => Except.ok [⟨"ctx", 0, 0⟩]
  embed := fun _ => Except.ok 7
  fmtRFC3339 := fun _ => "1970-01-01T00:00:00Z"

/-- Same collaborators, but authorization fails. -/
def depsAuthFailW : SearchDeps Nat Nat Nat Nat Nat :=
  { depsOkW with authorize := Except.error "bad key" }

/-- Request with `top_ke` out of range. -/
def reqKE26 : SearchRequest := ⟨"m1", "q", some 26, none, false⟩

/-- Request relying on the defaults, with a padded query. -/
def reqDefaults : SearchRequest := ⟨"m1", "  hello  ", none, none, false⟩

/-- Valid request with `top_ke = 0` (context-only search). -/
def reqKE0 : SearchRequest := ⟨"m1", "hi", some 0, some 1, false⟩

/-- Request whose body fails validation (empty memoryId). -/
def reqNoMemory : SearchRequest := ⟨"", "q", none, none, false⟩

/-- Request whose memoryId is whitespace-only (but non-empty). -/
def reqWSMemory : SearchRequest := ⟨" ", "q", none, none, false⟩

/-- MCP tool arguments carrying string-typed `top_ke`/`top_kc`. -/
def mcpArgsW : List (String × MCPValue) :=
  [("memory_id", MCPValue.str "m1"), ("query", MCPValue.str "hello"),
   ("top_ke", MCPValue.str "26"), ("top_kc", MCPValue.str "0")]

/-- A backend client search oracle that always succeeds. -/
def mcpSearchOkW : ClientSearchRequest → Except String Nat := fun _ => Except.ok 0

/-! ## Theorems -/

/-! ### Shared lemmas -/

theorem preferredText_eq_empty_of_noUsableText (p : Payload) :
    ∀ keys : List String, noUsableText p keys = true → preferredText p keys = "" := by
  intro keys
  induction keys with
  | nil => intro _; rfl
  | cons k keys ih =>
    intro h
    simp only [noUsableText, List.all_cons, Bool.and_eq_true] at h
    simp only [preferredText]
    cases hk : List.lookup k p with
    | none => exact ih h.2
    | some v =>
      cases v with
      | str s =>
        rw [hk] at h
        simp only [decide_eq_true_eq] at h
        simp [h.1, ih h.2]
      | other => exact ih h.2

theorem runUpsert_conflict {V : Type} (e : String → Except String V)
    (i : IndexCall V → Option String) (p : Payload) (keys : List String)
    (mk : V → IndexCall V) (c : IndexCall V) (msg : String)
    (hc : (runUpsert e i p keys mk).indexCalls = [c])
    (hm : i c = some msg) :
    (runUpsert e i p keys mk).result =
      if isAlreadyExists (some msg) then Except.ok () else Except.error msg := by
  unfold runUpsert at hc ⊢
  by_cases ht : preferredText p keys = ""
  · simp [ht] at hc
  · rw [if_neg ht] at hc ⊢
    cases he : e (preferredText p keys) with
    | error err =>
      rw [he] at hc
      simp at hc
    | ok v =>
      rw [he] at hc
      dsimp only at hc ⊢
      cases hiv : i (mk v) with
      | none =>
        rw [hiv] at hc
        dsimp only at hc
        injection hc with h1 _
        subst h1
        rw [hiv] at hm
        exact Option.noConfusion hm
      | some m =>
        rw [hiv] at hc
        dsimp only at hc ⊢
        by_cases hA : isAlreadyExists (some m) = true
        · rw [if_pos hA] at hc ⊢
          dsimp only at hc ⊢
          injection hc with h1 _
          subst h1
          rw [hiv] at hm
          injection hm with h2
          subst h2
          rw [if_pos hA]
        · rw [if_neg hA] at hc ⊢
          dsimp only at hc ⊢
          injection hc with h1 _
          subst h1
          rw [hiv] at hm
          injection hm with h2
          subst h2
          rw [if_neg hA]

theorem runDelete_conflict {V : Type}
    (i : IndexCall V → Option String) (c0 c : IndexCall V) (msg : String)
    (hc : (runDelete i c0).indexCalls = [c])
    (hm : i c = some msg) :
    (runDelete i c0).result =
      if isAlreadyExists (some msg) then Except.ok () else Except.error msg := by
  unfold runDelete at hc ⊢
  cases hiv : i c0 with
  | none =>
    rw [hiv] at hc
    dsimp only at hc
    injection hc with h1 _
    subst h1
    rw [hiv] at hm
    exact Option.noConfusion hm
  | some m =>
    rw [hiv] at hc
    dsimp only at hc ⊢
    by_cases hA : isAlreadyExists (some m) = true
    · rw [if_pos hA] at hc ⊢
      dsimp only at hc ⊢
      injection hc with h1 _
      subst h1
      rw [hiv] at hm
      injection hm with h2
      subst h2
      rw [if_pos hA]
    · rw [if_neg hA] at hc ⊢
      dsimp only at hc ⊢
      injection hc with h1 _
      subst h1
      rw [hiv] at hm
      injection hm with h2
      subst h2
      rw [if_neg hA]

theorem runUpsert_embedCalls {V : Type} (e : String → Except String V)
    (i : IndexCall V → Option String) (p : Payload) (keys : List String)
    (mk : V → IndexCall V) (ht : preferredText p keys ≠ "") :
    (runUpsert e i p keys mk).embedCalls = [preferredText p keys] := by
  unfold runUpsert
  rw [if_neg ht]
  cases e (preferredText p keys) with
  | error err => rfl
  | ok v =>
    dsimp only
    cases i (mk v) with
    | none => rfl
    | some m =>
      dsimp only
      split <;> rfl

theorem runUpsert_indexCalls {V : Type} (e : String → Except String V)
    (i : IndexCall V → Option String) (p : Payload) (keys : List String)
    (mk : V → IndexCall V) (v : V) (ht : preferredText p keys ≠ "")
    (hv : e (preferredText p keys) = Except.ok v) :
    (runUpsert e i p keys mk).indexCalls = [mk v] := by
  unfold runUpsert
  rw [if_neg ht, hv]
  dsimp only
  cases i (mk v) with
  | none => rfl
  | some m =>
    dsimp only
    split <;> rfl

/-! ### Claims about the outbox worker -/

/-- C1: for every outbox job with op `upsert_entry` or `upsert_context`
whose preferred text keys (`summary` then `rawEntry` for entries;
`context` for contexts) yield no value that exists, is a string, and is
non-empty after trimming, `handle` invokes neither `Embed` nor any index
upsert and returns success, so the job is marked done. -/
theorem claim_C1_empty_text_noop_success {V : Type}
    (embed : String → Except String V) (index : IndexCall V → Option String)
    (j : Job)
    (h : (j.op = "upsert_entry" ∧ noUsableText j.payload ["summary", "rawEntry"] = true) ∨
         (j.op = "upsert_context" ∧ noUsableText j.payload ["context"] = true)) :
    handle embed index j = ⟨[], [], Except.ok ()⟩ := by
  rcases h with ⟨hop, hempty⟩ | ⟨hop, hempty⟩ <;>
    simp [handle, hop, runUpsert,
      preferredText_eq_empty_of_noUsableText _ _ hempty]

theorem claim_C1_witness :
    (jobEmptyEntry.op = "upsert_entry" ∧
      noUsableText jobEmptyEntry.payload ["summary", "rawEntry"] = true) ∧
    handle embedOkW indexOkW jobEmptyEntry = ⟨[], [], Except.ok ()⟩ :=
  ⟨⟨rfl, by decide⟩,
   claim_C1_empty_text_noop_success embedOkW indexOkW jobEmptyEntry
     (Or.inl ⟨rfl, by decide⟩)⟩

/-- C2: for every outbox job whose handling issues an index call, if that
call returns an error whose message contains `already exists` or
`status code: 422` (case-sensitively), `handle` returns success (job
marked done); every other non-nil index error is returned for retry. -/
theorem claim_C2_already_exists_is_success {V : Type}
    (embed : String → Except String V) (index : IndexCall V → Option String)
    (j : Job) (c : IndexCall V) (msg : String)
    (hc : (handle embed index j).indexCalls = [c])
    (hm : index c = some msg) :
    (handle embed index j).result =
      if goContains msg "already exists" || goContains msg "status code: 422" then
        Except.ok ()
      else Except.error msg := by
  have hiff : (if goContains msg "already exists" || goContains msg "status code: 422" then
        (Except.ok () : Except String Unit)
      else Except.error msg) =
      (if isAlreadyExists (some msg) = true then Except.ok () else Except.error msg) := by
    simp [isAlreadyExists]
  rw [hiff]
  unfold handle at hc ⊢
  by_cases h1 : j.op = "upsert_entry"
  · rw [if_pos h1] at hc ⊢; exact runUpsert_conflict _ _ _ _ _ _ _ hc hm
  · rw [if_neg h1] at hc ⊢
    by_cases h2 : j.op = "upsert_context"
    · rw [if_pos h2] at hc ⊢; exact runUpsert_conflict _ _ _ _ _ _ _ hc hm
    · rw [if_neg h2] at hc ⊢
      by_cases h3 : j.op = "delete_entry"
      · rw [if_pos h3] at hc ⊢; exact runDelete_conflict _ _ _ _ hc hm
      · rw [if_neg h3] at hc ⊢
        by_cases h4 : j.op = "delete_context"
        · rw [if_pos h4] at hc ⊢; exact runDelete_conflict _ _ _ _ hc hm
        · rw [if_neg h4] at hc ⊢
          by_cases h5 : j.op = "delete_memory"
          · rw [if_pos h5] at hc ⊢; exact runDelete_conflict _ _ _ _ hc hm
          · rw [if_neg h5] at hc ⊢
            by_cases h6 : j.op = "delete_vault"
            · rw [if_pos h6] at hc ⊢; exact runDelete_conflict _ _ _ _ hc hm
            · rw [if_neg h6] at hc ⊢
              simp at hc

theorem claim_C2_witness :
    (handle embedOkW indexConflictW jobBothPresent).indexCalls =
      [IndexCall.upsertEntry "entry-4" 7 jobBothPresent.payload] ∧
    indexConflictW (IndexCall.upsertEntry "entry-4" 7 jobBothPresent.payload) =
      some "object already exists" ∧
    (handle embedOkW indexConflictW jobBothPresent).result = Except.ok () := by
  refine ⟨by decide, rfl, ?_⟩
  have h := claim_C2_already_exists_is_success embedOkW indexConflictW
    jobBothPresent (IndexCall.upsertEntry "entry-4" 7 jobBothPresent.payload)
    "object already exists" (by decide) rfl
  rw [h]
  decide

/-- C8: for every outbox job whose op is not one of the six recognized
operations (including the empty string), `handle` returns a permanent
`unknown op` error and invokes neither `Embed` nor any index operation. -/
theorem claim_C8_unknown_op_permanent_error {V : Type}
    (embed : String → Except String V) (index : IndexCall V → Option String)
    (j : Job)
    (h : j.op ∉ (["upsert_entry", "upsert_context", "delete_entry",
        "delete_context", "delete_memory", "delete_vault"] : List String)) :
    handle embed index j = ⟨[], [], Except.error ("unknown op: " ++ j.op)⟩ := by
  simp only [List.mem_cons, List.not_mem_nil, or_false, not_or] at h
  obtain ⟨h1, h2, h3, h4, h5, h6⟩ := h
  simp [handle, h1, h2, h3, h4, h5, h6]

theorem claim_C8_witness :
    handle embedOkW indexOkW jobUnknownOp =
      ⟨[], [], Except.error "unknown op: invalid_operation"⟩ :=
  claim_C8_unknown_op_permanent_error embedOkW indexOkW jobUnknownOp (by decide)

/-- C7 as stated is false: in the job `jobPadSummary` both `summary`
(`" "`) and `rawEntry` (`"R"`) are non-empty strings, yet `Embed` is
invoked with the raw entry text, not the summary, because the
whitespace-only summary is skipped by `preferredText`. -/
theorem claim_C7_counterexample :
    jobPadSummary.op = "upsert_entry" ∧
    stringAt jobPadSummary.payload "summary" = " " ∧ (" " : String) ≠ "" ∧
    stringAt jobPadSummary.payload "rawEntry" = "R" ∧ ("R" : String) ≠ "" ∧
    (handle embedOkW indexOkW jobPadSummary).embedCalls = ["R"] ∧
    (handle embedOkW indexOkW jobPadSummary).embedCalls ≠ [" "] := by
  decide

/-- C7 (amended): for every `upsert_entry` outbox job in which both
`summary` and `rawEntry` are strings that are non-empty after trimming
whitespace, the worker invokes `Embed` with the summary text (summary is
preferred over rawEntry), and the subsequent `UpsertEntry` call receives
the raw outbox payload map unchanged. -/
theorem claim_C7_summary_preferred {V : Type}
    (embed : String → Except String V) (index : IndexCall V → Option String)
    (j : Job) (s r : String)
    (hop : j.op = "upsert_entry")
    (hs : List.lookup "summary" j.payload = some (GoValue.str s))
    (hst : goTrimSpace s ≠ "")
    (hr : List.lookup "rawEntry" j.payload = some (GoValue.str r))
    (hrt : goTrimSpace r ≠ "") :
    (handle embed index j).embedCalls = [s] ∧
    ∀ v, embed s = Except.ok v →
      (handle embed index j).indexCalls =
        [IndexCall.upsertEntry j.aggregateID v j.payload] := by
  have hpt : preferredText j.payload ["summary", "rawEntry"] = s := by
    simp [preferredText, hs, hst]
  have hsne : s ≠ "" := by
    intro heq
    exact hst (by rw [heq]; rfl)
  have htne : preferredText j.payload ["summary", "rawEntry"] ≠ "" := by
    rw [hpt]; exact hsne
  constructor
  · have h := runUpsert_embedCalls embed index j.payload ["summary", "rawEntry"]
      (fun v => IndexCall.upsertEntry j.aggregateID v j.payload) htne
    rw [hpt] at h
    unfold handle
    rw [if_pos hop]
    exact h
  · intro v hv
    have h := runUpsert_indexCalls embed index j.payload ["summary", "rawEntry"]
      (fun v => IndexCall.upsertEntry j.aggregateID v j.payload) v htne
      (by rw [hpt]; exact hv)
    unfold handle
    rw [if_pos hop]
    exact h

theorem claim_C7_witness :
    (handle embedOkW indexOkW jobBothPresent).embedCalls = ["This is the summary"] ∧
    (handle embedOkW indexOkW jobBothPresent).indexCalls =
      [IndexCall.upsertEntry "entry-4" 7 jobBothPresent.payload] :=
  have h := claim_C7_summary_preferred embedOkW indexOkW jobBothPresent
    "This is the summary" "This is the raw entry" rfl (by decide) (by decide)
    (by decide) (by decide)
  ⟨h.1, h.2 7 rfl⟩

/-! ### Shared lemmas about the search service -/

theorem except_error_iff {α β : Type} (x : Except α β) :
    (∃ m, x = Except.error m) ↔ ¬∃ y, x = Except.ok y := by
  cases x <;> simp

theorem validate_ok_iff (r : SearchRequest) :
    (∃ r', r.Validate = Except.ok r') ↔
      (¬r.memoryID = "" ∧ ¬goTrimSpace r.query = "" ∧
       ¬(r.topKE.getD 5 < 0 ∨ 25 < r.topKE.getD 5) ∧
       ¬(r.topKC.getD 2 < 1 ∨ 10 < r.topKC.getD 2)) := by
  by_cases h1 : r.memoryID = "" <;> by_cases h2 : goTrimSpace r.query = "" <;>
    by_cases h3 : r.topKE.getD 5 < 0 ∨ 25 < r.topKE.getD 5 <;>
    by_cases h4 : r.topKC.getD 2 < 1 ∨ 10 < r.topKC.getD 2 <;>
    simp [SearchRequest.Validate, h1, h2, h3, h4]

theorem getD_out_iff (o : Option Int) (dflt lo hi : Int)
    (hlo : lo ≤ dflt) (hhi : dflt ≤ hi) :
    (o.getD dflt < lo ∨ hi < o.getD dflt) ↔
      ∃ k, o = some k ∧ (k < lo ∨ hi < k) := by
  cases o with
  | none => simp only [Option.getD_none]; constructor; · intro h; omega
            · rintro ⟨k, hk, _⟩; exact Option.noConfusion hk
  | some k => simp [Option.getD_some]

theorem afterEntries_trace {V H T S A : Type} (d : SearchDeps V H T S A)
    (info : ActorInfo) (req : SearchRequest) (vec : V) (hits : List H)
    (done : List (SIdxCall V A)) :
    (afterEntries d info req vec hits done).1.embedCalls = [req.query] ∧
    ∀ c ∈ (afterEntries d info req vec hits done).1.idxCalls,
      c ∈ done ∨ c = SIdxCall.latestContext info.actorID req.memoryID ∨
      c = SIdxCall.searchContexts info.actorID req.memoryID req.query vec
            (req.topKC.getD 2) d.alpha := by
  unfold afterEntries
  cases d.latestContext info.actorID req.memoryID with
  | error e =>
    refine ⟨rfl, fun c hc => ?_⟩
    dsimp only at hc
    simp only [List.mem_append, List.mem_cons, List.not_mem_nil, or_false] at hc
    tauto
  | ok p =>
    obtain ⟨lc, ts⟩ := p
    dsimp only
    cases d.searchContexts info.actorID req.memoryID req.query vec
        (req.topKC.getD 2) d.alpha with
    | error e =>
      refine ⟨rfl, fun c hc => ?_⟩
      dsimp only at hc
      simp only [List.mem_append, List.mem_cons, List.not_mem_nil, or_false] at hc
      tauto
    | ok chs =>
      refine ⟨rfl, fun c hc => ?_⟩
      dsimp only at hc
      simp only [List.mem_append, List.mem_cons, List.not_mem_nil, or_false] at hc
      tauto

/-! ### Claims about the search service -/

/-- C3: `SearchRequest` validation fails with a client error exactly when
`memoryId` is empty, the query is empty after trimming, a supplied `topKE`
lies outside `[0, 25]`, or a supplied `topKC` lies outside `[1, 10]`;
absent `topKE`/`topKC` default to 5 and 2; and on a validation failure the
handler invokes neither `Embed` nor any index operation. -/
theorem claim_C3_validation_rules {V H T S A : Type} (d : SearchDeps V H T S A)
    (r : SearchRequest) :
    ((∃ m, r.Validate = Except.error m) ↔
      (r.memoryID = "" ∨ goTrimSpace r.query = "" ∨
       (∃ k, r.topKE = some k ∧ (k < 0 ∨ 25 < k)) ∨
       (∃ k, r.topKC = some k ∧ (k < 1 ∨ 10 < k)))) ∧
    (∀ r', r.Validate = Except.ok r' →
      r'.topKE = some (r.topKE.getD 5) ∧ r'.topKC = some (r.topKC.getD 2)) ∧
    (∀ m, r.Validate = Except.error m → (HandleSearch d r).1 = ⟨[], []⟩) := by
  refine ⟨?_, ?_, ?_⟩
  · rw [except_error_iff, validate_ok_iff]
    simp only [not_and_or, not_not]
    rw [getD_out_iff r.topKE 5 0 25 (by omega) (by omega),
        getD_out_iff r.topKC 2 1 10 (by omega) (by omega)]
  · intro r' h
    unfold SearchRequest.Validate at h
    dsimp only at h
    split at h
    · exact Except.noConfusion h
    · split at h
      · exact Except.noConfusion h
      · split at h
        · exact Except.noConfusion h
        · split at h
          · exact Except.noConfusion h
          · injection h with h'
            subst h'
            exact ⟨rfl, rfl⟩
  · intro m h
    unfold HandleSearch
    cases d.authorize with
    | error e => rfl
    | ok info =>
      rw [h]

theorem claim_C3_witness :
    (∃ m, reqKE26.Validate = Except.error m) ∧
    (HandleSearch depsOkW reqKE26).1 = ⟨[], []⟩ :=
  ⟨(claim_C3_validation_rules depsOkW reqKE26).1.mpr
     (Or.inr (Or.inr (Or.inl ⟨26, rfl, by omega⟩))),
   (claim_C3_validation_rules depsOkW reqKE26).2.2
     "top_ke must be between 0 and 25" (by decide)⟩

/-- C4 as stated is false: on the request `reqNoMemory` (whose body fails
validation) with a failing authorizer, the handler response is the
authorization error, not the validation error — so authentication runs
before validation, contradicting "first validating … only then
authenticating". -/
theorem claim_C4_counterexample :
    (∃ m, reqNoMemory.Validate = Except.error m) ∧
    (HandleSearch depsAuthFailW reqNoMemory).2 =
      SResult.unauthorized "Unauthorized: bad key" ∧
    (HandleSearch depsAuthFailW reqNoMemory).2 ≠
      SResult.badRequest "memoryId is required" :=
  ⟨⟨"memoryId is required", by decide⟩, by decide, by decide⟩

/-- C4 (amended): the search handler first authenticates/authorizes via
the external collaborator, rejecting with an unauthorized error on
failure, and only then validates and defaults the request body, rejecting
with a client error on violation; in both rejection cases no collaborator
call is made. -/
theorem claim_C4_auth_then_validate {V H T S A : Type}
    (d : SearchDeps V H T S A) (r : SearchRequest) :
    (∀ e, d.authorize = Except.error e →
      (HandleSearch d r).2 = SResult.unauthorized ("Unauthorized: " ++ e) ∧
      (HandleSearch d r).1 = ⟨[], []⟩) ∧
    (∀ info, d.authorize = Except.ok info → ∀ m, r.Validate = Except.error m →
      (HandleSearch d r).2 = SResult.badRequest m ∧
      (HandleSearch d r).1 = ⟨[], []⟩) := by
  constructor
  · intro e he
    unfold HandleSearch
    rw [he]
    exact ⟨rfl, rfl⟩
  · intro info hi m hm
    unfold HandleSearch
    rw [hi, hm]
    exact ⟨rfl, rfl⟩

theorem claim_C4_witness :
    (HandleSearch depsAuthFailW reqDefaults).2 =
      SResult.unauthorized "Unauthorized: bad key" ∧
    (HandleSearch depsAuthFailW reqDefaults).1 = ⟨[], []⟩ :=
  (claim_C4_auth_then_validate depsAuthFailW reqDefaults).1 "bad key" rfl

/-- C5: for every valid search request whose validated `topKE` is 0, the
handler makes no entry-search index call and returns `count = 0` with an
empty entries list, while still calling `LatestContext` and
`SearchContexts` and returning `latestContext`, `latestContextTimestamp`,
and the `contexts` array. -/
theorem claim_C5_topKE_zero_context_only {V H T S A : Type}
    (d : SearchDeps V H T S A) (req req' : SearchRequest) (info : ActorInfo)
    (v : V) (lc : String) (ts : T) (chs : List (ContextHit T S))
    (hA : d.authorize = Except.ok info)
    (hV : req.Validate = Except.ok req')
    (hKE : req'.topKE = some 0)
    (hE : d.embed req'.query = Except.ok v)
    (hL : d.latestContext info.actorID req'.memoryID = Except.ok (lc, ts))
    (hC : d.searchContexts info.actorID req'.memoryID req'.query v
        (req'.topKC.getD 2) d.alpha = Except.ok chs) :
    (HandleSearch d req).1.idxCalls =
      [SIdxCall.latestContext info.actorID req'.memoryID,
       SIdxCall.searchContexts info.actorID req'.memoryID req'.query v
         (req'.topKC.getD 2) d.alpha] ∧
    (HandleSearch d req).2 =
      SResult.ok [] 0 lc (d.fmtRFC3339 ts)
        (chs.map fun ch => ⟨ch.context, d.fmtRFC3339 ch.timestamp, ch.score⟩) := by
  unfold HandleSearch
  rw [hA, hV]
  dsimp only
  rw [hE]
  dsimp only
  rw [hKE]
  simp only [Option.getD_some]
  rw [if_neg (by omega : ¬(0 : Int) < 0)]
  unfold afterEntries
  rw [hL]
  dsimp only
  rw [hC]
  exact ⟨rfl, rfl⟩

theorem claim_C5_witness :
    (HandleSearch depsOkW reqKE0).1.idxCalls =
      [SIdxCall.latestContext "test-user" "m1",
       SIdxCall.searchContexts "test-user" "m1" "hi" 7 1 0] ∧
    (HandleSearch depsOkW reqKE0).2 =
      SResult.ok [] 0 "ctx" "1970-01-01T00:00:00Z"
        [⟨"ctx", "1970-01-01T00:00:00Z", 0⟩] :=
  claim_C5_topKE_zero_context_only depsOkW reqKE0 reqKE0 ⟨"test-user"⟩ 7
    "ctx" 0 [⟨"ctx", 0, 0⟩] rfl (by decide) rfl rfl rfl rfl

/-- C6: for every valid search request, the handler computes the query
embedding exactly once, and every index call that carries a vector (the
entry search and the context search) receives that same vector. -/
theorem claim_C6_embed_once_shared_vector {V H T S A : Type}
    (d : SearchDeps V H T S A) (req req' : SearchRequest) (info : ActorInfo)
    (v : V)
    (hA : d.authorize = Except.ok info)
    (hV : req.Validate = Except.ok req')
    (hE : d.embed req'.query = Except.ok v) :
    (HandleSearch d req).1.embedCalls = [req'.query] ∧
    ∀ c ∈ (HandleSearch d req).1.idxCalls, ∀ w, c.vecOf = some w → w = v := by
  unfold HandleSearch
  rw [hA, hV]
  dsimp only
  rw [hE]
  dsimp only
  by_cases hk : 0 < req'.topKE.getD 5
  · rw [if_pos hk]
    cases hs : d.search info.actorID req'.memoryID req'.query v
        (req'.topKE.getD 5) d.alpha req'.includeRawEntries with
    | error e =>
      dsimp only
      refine ⟨rfl, fun c hc w hw => ?_⟩
      simp only [List.mem_singleton] at hc
      subst hc
      simp only [SIdxCall.vecOf, Option.some.injEq] at hw
      exact hw.symm
    | ok hits =>
      dsimp only
      have h := afterEntries_trace d info req' v hits
        [SIdxCall.search info.actorID req'.memoryID req'.query v
          (req'.topKE.getD 5) d.alpha req'.includeRawEntries]
      refine ⟨h.1, fun c hc w hw => ?_⟩
      rcases h.2 c hc with hd | hl | hctx
      · simp only [List.mem_singleton] at hd
        subst hd
        simp only [SIdxCall.vecOf, Option.some.injEq] at hw
        exact hw.symm
      · subst hl
        simp only [SIdxCall.vecOf] at hw
        exact Option.noConfusion hw
      · subst hctx
        simp only [SIdxCall.vecOf, Option.some.injEq] at hw
        exact hw.symm
  · rw [if_neg hk]
    have h := afterEntries_trace d info req' v [] []
    refine ⟨h.1, fun c hc w hw => ?_⟩
    rcases h.2 c hc with hd | hl | hctx
    · exact absurd hd (List.not_mem_nil c)
    · subst hl
      simp only [SIdxCall.vecOf] at hw
      exact Option.noConfusion hw
    · subst hctx
      simp only [SIdxCall.vecOf, Option.some.injEq] at hw
      exact hw.symm

theorem claim_C6_witness :
    (HandleSearch depsOkW reqDefaults).1.embedCalls = ["hello"] ∧
    ∀ c ∈ (HandleSearch depsOkW reqDefaults).1.idxCalls,
      ∀ w, c.vecOf = some w → w = 7 :=
  claim_C6_embed_once_shared_vector depsOkW reqDefaults
    ⟨"m1", "hello", some 5, some 2, false⟩ ⟨"test-user"⟩ 7 rfl (by decide) rfl

/-- C9: validation trims whitespace from the query but not from
`memoryId`: a memoryId consisting only of whitespace passes validation
unchanged, and every index call the handler makes carries it verbatim. -/
theorem claim_C9_memoryID_not_trimmed {V H T S A : Type}
    (d : SearchDeps V H T S A) (req : SearchRequest)
    (hws : ∀ c ∈ req.memoryID.data, goIsSpace c = true)
    (hne : req.memoryID ≠ "")
    (hq : goTrimSpace req.query ≠ "")
    (hke : ¬(req.topKE.getD 5 < 0 ∨ 25 < req.topKE.getD 5))
    (hkc : ¬(req.topKC.getD 2 < 1 ∨ 10 < req.topKC.getD 2)) :
    (∃ r', req.Validate = Except.ok r' ∧ r'.memoryID = req.memoryID) ∧
    ∀ c ∈ (HandleSearch d req).1.idxCalls, c.memOf = req.memoryID := by
  have hVok : ∃ r', req.Validate = Except.ok r' ∧ r'.memoryID = req.memoryID := by
    unfold SearchRequest.Validate
    dsimp only
    rw [if_neg hne, if_neg hq]
    rw [if_neg (by simp only [Bool.or_eq_true, decide_eq_true_eq]; exact hke)]
    rw [if_neg (by simp only [Bool.or_eq_true, decide_eq_true_eq]; exact hkc)]
    exact ⟨_, rfl, rfl⟩
  refine ⟨hVok, ?_⟩
  obtain ⟨r', hV, hmem⟩ := hVok
  intro c hc
  unfold HandleSearch at hc
  cases hA : d.authorize with
  | error e =>
    rw [hA] at hc
    exact absurd hc (List.not_mem_nil c)
  | ok info =>
    rw [hA] at hc
    dsimp only at hc
    rw [hV] at hc
    dsimp only at hc
    cases hE : d.embed r'.query with
    | error err =>
      rw [hE] at hc
      exact absurd hc (List.not_mem_nil c)
    | ok v =>
      rw [hE] at hc
      dsimp only at hc
      by_cases hk : 0 < r'.topKE.getD 5
      · rw [if_pos hk] at hc
        cases hS : d.search info.actorID r'.memoryID r'.query v
            (r'.topKE.getD 5) d.alpha r'.includeRawEntries with
        | error err =>
          rw [hS] at hc
          dsimp only at hc
          simp only [List.mem_singleton] at hc
          subst hc
          simp [SIdxCall.memOf, hmem]
        | ok hits =>
          rw [hS] at hc
          dsimp only at hc
          rcases (afterEntries_trace d info r' v hits _).2 c hc with hd | hl | hctx
          · simp only [List.mem_singleton] at hd
            subst hd
            simp [SIdxCall.memOf, hmem]
          · subst hl
            simp [SIdxCall.memOf, hmem]
          · subst hctx
            simp [SIdxCall.memOf, hmem]
      · rw [if_neg hk] at hc
        rcases (afterEntries_trace d info r' v [] []).2 c hc with hd | hl | hctx
        · exact absurd hd (List.not_mem_nil c)
        · subst hl
          simp [SIdxCall.memOf, hmem]
        · subst hctx
          simp [SIdxCall.memOf, hmem]

theorem claim_C9_witness :
    (∃ r', reqWSMemory.Validate = Except.ok r' ∧ r'.memoryID = " ") ∧
    ∀ c ∈ (HandleSearch depsOkW reqWSMemory).1.idxCalls, c.memOf = " " :=
  claim_C9_memoryID_not_trimmed depsOkW reqWSMemory (by decide) (by decide)
    (by decide) (by decide) (by decide)

/-! ### Shared lemmas about the MCP tool handler -/

theorem string_append_ne (a e b : String)
    (h : b.data.take a.data.length ≠ a.data) : a ++ e ≠ b := by
  intro hab
  apply h
  have hd : a.data ++ e.data = b.data := by
    rw [← hab]
    cases a
    cases e
    rfl
  rw [← hd]
  exact List.take_left a.data e.data

theorem mcpDoSearch_calls {R : Type} (args : List (String × MCPValue))
    (searchFn : ClientSearchRequest → Except String R)
    (memoryID query : String) (topKE topKC : Int) :
    ((mcpDoSearch args searchFn memoryID query topKE topKC).1.map
        fun req => (req.topKE, req.topKC)) = [(topKE, topKC)] ∧
    ∀ msg, (mcpDoSearch args searchFn memoryID query topKE topKC).2 =
      MCPResult.toolError msg → ∃ e, msg = "search failed: " ++ e := by
  unfold mcpDoSearch
  dsimp only
  constructor
  · split <;> rfl
  · intro msg hmsg
    split at hmsg
    · injection hmsg with h'
      exact ⟨_, h'.symm⟩
    · exact MCPResult.noConfusion hmsg

theorem mcpAfterKE_non_num {R : Type} (args : List (String × MCPValue))
    (searchFn : ClientSearchRequest → Except String R)
    (memoryID query : String) (topKE : Int) (w : MCPValue)
    (hw : List.lookup "top_kc" args = some w)
    (hwn : ∀ n, w ≠ MCPValue.num n) :
    mcpAfterKE args searchFn memoryID query topKE =
      mcpDoSearch args searchFn memoryID query topKE 2 := by
  unfold mcpAfterKE
  rw [hw]
  cases w with
  | num n => exact absurd rfl (hwn n)
  | str s => rfl
  | bool b => rfl
  | other => rfl

theorem mcpHandleSearch_non_num {R : Type} (args : List (String × MCPValue))
    (searchFn : ClientSearchRequest → Except String R) (v : MCPValue)
    (hv : List.lookup "top_ke" args = some v)
    (hvn : ∀ n, v ≠ MCPValue.num n) :
    mcpHandleSearch args searchFn =
      mcpAfterKE args searchFn
        (match List.lookup "memory_id" args with
         | some (MCPValue.str s) => s
         | _ => "")
        (match List.lookup "query" args with
         | some (MCPValue.str s) => s
         | _ => "")
        5 := by
  unfold mcpHandleSearch
  rw [hv]
  cases v with
  | num n => exact absurd rfl (hvn n)
  | str s => rfl
  | bool b => rfl
  | other => rfl

/-! ### Claim about the MCP tool handler -/

/-- C10: in the MCP `search_memories` tool, the range checks on `top_ke`
and `top_kc` apply only when the argument is a JSON number: arguments of
any other type are silently ignored, the defaults 5 and 2 are used for the
single backend search call, and no range error is returned. -/
theorem claim_C10_non_number_topk_ignored {R : Type}
    (args : List (String × MCPValue))
    (searchFn : ClientSearchRequest → Except String R) (v w : MCPValue)
    (hv : List.lookup "top_ke" args = some v)
    (hvn : ∀ n, v ≠ MCPValue.num n)
    (hw : List.lookup "top_kc" args = some w)
    (hwn : ∀ n, w ≠ MCPValue.num n) :
    ((mcpHandleSearch args searchFn).1.map
        fun req => (req.topKE, req.topKC)) = [((5 : Int), (2 : Int))] ∧
    (mcpHandleSearch args searchFn).2 ≠
      MCPResult.toolError "top_ke must be between 0 and 25" ∧
    (mcpHandleSearch args searchFn).2 ≠
      MCPResult.toolError "top_kc must be between 1 and 10" := by
  rw [mcpHandleSearch_non_num args searchFn v hv hvn,
      mcpAfterKE_non_num args searchFn _ _ 5 w hw hwn]
  have h := mcpDoSearch_calls args searchFn
    (match List.lookup "memory_id" args with
     | some (MCPValue.str s) => s
     | _ => "")
    (match List.lookup "query" args with
     | some (MCPValue.str s) => s
     | _ => "") 5 2
  refine ⟨h.1, ?_, ?_⟩
  · intro heq
    obtain ⟨e, he⟩ := h.2 _ heq
    exact string_append_ne "search failed: " e
      "top_ke must be between 0 and 25" (by decide) he.symm
  · intro heq
    obtain ⟨e, he⟩ := h.2 _ heq
    exact string_append_ne "search failed: " e
      "top_kc must be between 1 and 10" (by decide) he.symm

theorem claim_C10_witness :
    ((mcpHandleSearch mcpArgsW mcpSearchOkW).1.map
        fun req => (req.topKE, req.topKC)) = [((5 : Int), (2 : Int))] ∧
    (mcpHandleSearch mcpArgsW mcpSearchOkW).2 ≠
      MCPResult.toolError "top_ke must be between 0 and 25" ∧
    (mcpHandleSearch mcpArgsW mcpSearchOkW).2 ≠
      MCPResult.toolError "top_kc must be between 1 and 10" :=
  claim_C10_non_number_topk_ignored mcpArgsW mcpSearchOkW
    (MCPValue.str "26") (MCPValue.str "0") (by decide)
    (fun n h => MCPValue.noConfusion h) (by decide)
    (fun n h => MCPValue.noConfusion h)

end Mycelian
